import Mathlib

/-!  Verification of the imgtool TrackedImage operations.

The Go source (package main) is shallowly embedded: images are modelled as
rectangles of opaque color samples, the file system and codec collaborators
are passed in as explicit outcomes, and each pointer-receiver method becomes
a function from the old state to a pair of (returned error, new state).  -/

/-- Opaque color sample (Go color.Color). Samples are copied by value; the
conversion performed by the Set method of image.RGBA is modelled as the
identity, since color-space conversion is outside the scope of the
transform algorithm. -/
abbrev Color := Nat

/-- Go color.Model tags relevant here: image.NewRGBA images report the RGBA
model, decoded images may report others (for example YCbCr for JPEG). -/
inductive ColorModel where
  | rgba
  | nrgba
  | ycbcr
  | gray
deriving DecidableEq

/-- A decoded Go image.Image with zero-origin bounds (both image.Decode and
image.NewRGBA produce zero-origin bounds here): width and height are the
components of Bounds().Max, At is the sample accessor, model is the result
of ColorModel(). -/
structure GoImage where
  width : Nat
  height : Nat
  model : ColorModel
  At : Nat → Nat → Color

/-- Go errors as produced by errors.New and fmt.Errorf, compared by message. -/
inductive GoError where
  | message (s : String)
deriving DecidableEq

/-- The error text returned by flipVertically when no image is loaded. -/
def noImageLoadedMsg : String := "no image data, you must load the image first"

/-- The error text returned by the unimplemented flipHorizontally stub. -/
def notImplementedMsg : String := "horizontal flipping has not been implemented yet"

/-- The error text returned by resize for a rejected modifier. -/
def invalidModifierMsg : String := "unsupported image resize modifier"

/-- TrackedImage state: filepath, format and decoded image data (the data
field is none when no image is loaded, as the nil interface in Go). -/
structure TrackedImage where
  filepath : String
  format : String
  data : Option GoImage

/-- image.NewRGBA over a zero-origin w by h rectangle: every sample starts
as the zero value and the color model is RGBA. -/
def newRGBA (w h : Nat) : GoImage :=
  { width := w, height := h, model := ColorModel.rgba, At := fun _ _ => 0 }

/-- The Set method of image.RGBA: in-bounds writes update one sample,
out-of-bounds writes are ignored. -/
def setPix (g : GoImage) (x y : Nat) (c : Color) : GoImage :=
  if x < g.width ∧ y < g.height then
    { g with At := fun a b => if a = x ∧ b = y then c else g.At a b }
  else g

/-- The grid built by getPixels for a loaded image: entry x is the column
of samples At x 0 .. At x (height-1). -/
def pixelGrid (img : GoImage) : List (List Color) :=
  (List.range img.width).map (fun x => (List.range img.height).map (fun y => img.At x y))

/-- TrackedImage.getPixels: nil data gives a nil slice, otherwise the
column-major grid of samples. -/
def getPixels (i : TrackedImage) : List (List Color) :=
  match i.data with
  | none => []
  | some img => pixelGrid img

/-- One iteration of the inner loop of flipVertically at row y of column x:
skip when y > height/2, otherwise write the sample at the inverse coordinate
to y and the sample at y to the inverse coordinate. -/
def vSwapRow (row : List Color) (boundsY x : Nat) (acc : GoImage) (y : Nat) : GoImage :=
  if boundsY / 2 < y then acc
  else
    setPix (setPix acc x y (row.getD (boundsY - y - 1) 0)) x (boundsY - y - 1) (row.getD y 0)

/-- The inner loop of flipVertically over one column of the pixel grid. -/
def vSwapCol (pixels : List (List Color)) (boundsY : Nat) (acc : GoImage) (x : Nat) : GoImage :=
  (List.range (pixels.getD x []).length).foldl (vSwapRow (pixels.getD x []) boundsY x) acc

/-- TrackedImage.flipVertically: error when no image is loaded, otherwise
swap rows into a fresh RGBA image and replace the data field. -/
def flipVertically (i : TrackedImage) : Option GoError × TrackedImage :=
  match i.data with
  | none => (some (GoError.message noImageLoadedMsg), i)
  | some img =>
    let pixels := getPixels i
    let result :=
      (List.range pixels.length).foldl (vSwapCol pixels img.height) (newRGBA img.width img.height)
    (none, { i with data := some result })

/-- TrackedImage.flipHorizontally: unimplemented, always errors, never
touches the state. -/
def flipHorizontally (i : TrackedImage) : Option GoError × TrackedImage :=
  (some (GoError.message notImplementedMsg), i)

/-- TrackedImage.mirror: flipVertically then flipHorizontally, returning at
the first error. -/
def mirror (i : TrackedImage) : Option GoError × TrackedImage :=
  match flipVertically i with
  | (some e, i2) => (some e, i2)
  | (none, i2) =>
    match flipHorizontally i2 with
    | (some e, i3) => (some e, i3)
    | (none, i3) => (none, i3)

/-- TrackedImage.load: the outcomes of the external collaborators os.Open
and image.Decode are passed in explicitly; on success all three fields are
set together, on failure the underlying error is returned and the state is
kept as it was. -/
def load (i : TrackedImage) (path : String) (openRes : Option GoError)
    (decodeRes : Except GoError (GoImage × String)) : Option GoError × TrackedImage :=
  match openRes with
  | some e => (some e, i)
  | none =>
    match decodeRes with
    | Except.error e => (some e, i)
    | Except.ok (img, fm) => (none, { filepath := path, format := fm, data := some img })

/-- Observable file-system effects of save, in order of occurrence. -/
inductive FsEffect where
  | create (path : String)
  | write (path : String)
deriving DecidableEq

/-- TrackedImage.save: the outcomes of os.Create and of the encoder are
passed in explicitly; the returned list records the file-system effects in
order. In the source, os.Create runs (creating or truncating the target
file) before the format switch is inspected. -/
def save (i : TrackedImage) (pathArg : Option String) (createRes encodeRes : Option GoError) :
    Option GoError × List FsEffect :=
  let path := match pathArg with | none => i.filepath | some p => p
  match createRes with
  | some e => (some e, [])
  | none =>
    if i.format = "png" then
      match encodeRes with
      | some e => (some e, [FsEffect.create path])
      | none => (none, [FsEffect.create path, FsEffect.write path])
    else if i.format = "jpeg" then
      match encodeRes with
      | some e => (some e, [FsEffect.create path])
      | none => (none, [FsEffect.create path, FsEffect.write path])
    else
      (some (GoError.message ("unsupported format: " ++ i.format)), [FsEffect.create path])

/-- TrackedImage.resize: validation only, the transform itself is a no-op.
The float64 literals of the source are read as exact rationals. -/
def resize (i : TrackedImage) (modifier : ℚ) : Option GoError × TrackedImage :=
  if modifier ≤ 1/10 ∨ (1 < modifier ∧ modifier < 101/100) then
    (some (GoError.message invalidModifierMsg), i)
  else
    (none, i)

/-- The zero value TrackedImage (freshly constructed, nothing loaded). -/
def emptyTracked : TrackedImage := { filepath := "", format := "", data := none }

/-- A loaded 1 by 2 RGBA image with distinct samples in the two rows. -/
def img12 : GoImage :=
  { width := 1, height := 2, model := ColorModel.rgba,
    At := fun x y => if x = 0 ∧ y = 0 then 1 else 2 }

/-- A TrackedImage holding img12. -/
def tracked12 : TrackedImage := { filepath := "p", format := "png", data := some img12 }

/-- A loaded 1 by 1 image whose color model is not RGBA, as a decoded JPEG. -/
def imgYCbCr : GoImage :=
  { width := 1, height := 1, model := ColorModel.ycbcr, At := fun _ _ => 5 }

/-- A TrackedImage holding imgYCbCr. -/
def trackedJpeg : TrackedImage := { filepath := "q", format := "jpeg", data := some imgYCbCr }

/-- A loaded 2 by 2 image with four distinct samples. -/
def img2x2 : GoImage :=
  { width := 2, height := 2, model := ColorModel.rgba,
    At := fun x y => if x = 0 then (if y = 0 then 1 else 2) else (if y = 0 then 3 else 4) }

/-- A TrackedImage holding img2x2. -/
def tracked2x2 : TrackedImage := { filepath := "s", format := "png", data := some img2x2 }

/-- A loaded 1 by 3 image of odd height. -/
def img13 : GoImage :=
  { width := 1, height := 3, model := ColorModel.rgba, At := fun _ y => y + 7 }

/-- A TrackedImage holding img13. -/
def tracked13 : TrackedImage := { filepath := "r", format := "png", data := some img13 }

/-- A TrackedImage whose format tag is not in the encodable set. -/
def trackedBmp : TrackedImage := { filepath := "p", format := "bmp", data := some img12 }

theorem setPix_width (g : GoImage) (x y : Nat) (c : Color) : (setPix g x y c).width = g.width := by
  unfold setPix; split <;> rfl

theorem setPix_height (g : GoImage) (x y : Nat) (c : Color) : (setPix g x y c).height = g.height := by
  unfold setPix; split <;> rfl

theorem setPix_model (g : GoImage) (x y : Nat) (c : Color) : (setPix g x y c).model = g.model := by
  unfold setPix; split <;> rfl

theorem setPix_At (g : GoImage) (x y : Nat) (c : Color) (hx : x < g.width) (hy : y < g.height)
    (a b : Nat) : (setPix g x y c).At a b = if a = x ∧ b = y then c else g.At a b := by
  unfold setPix
  rw [if_pos ⟨hx, hy⟩]

theorem setPix_setPix_At (g : GoImage) (x y1 y2 : Nat) (c1 c2 : Color)
    (hx : x < g.width) (hy1 : y1 < g.height) (hy2 : y2 < g.height) (a b : Nat) :
    (setPix (setPix g x y1 c1) x y2 c2).At a b =
      if a = x ∧ b = y2 then c2 else if a = x ∧ b = y1 then c1 else g.At a b := by
  rw [setPix_At _ _ _ _ (by rw [setPix_width]; exact hx) (by rw [setPix_height]; exact hy2),
    setPix_At _ _ _ _ hx hy1]

theorem foldl_goimage_invariant {α : Type} (P : GoImage → Prop) (f : GoImage → α → GoImage)
    (hf : ∀ g a, P g → P (f g a)) :
    ∀ (l : List α) (g : GoImage), P g → P (l.foldl f g) := by
  intro l
  induction l with
  | nil => intro g hg; exact hg
  | cons a t ih => intro g hg; exact ih (f g a) (hf g a hg)

theorem vSwapRow_width (row : List Color) (bY x : Nat) (g : GoImage) (y : Nat) :
    (vSwapRow row bY x g y).width = g.width := by
  unfold vSwapRow; split
  · rfl
  · rw [setPix_width, setPix_width]

theorem vSwapRow_height (row : List Color) (bY x : Nat) (g : GoImage) (y : Nat) :
    (vSwapRow row bY x g y).height = g.height := by
  unfold vSwapRow; split
  · rfl
  · rw [setPix_height, setPix_height]

theorem vSwapRow_model (row : List Color) (bY x : Nat) (g : GoImage) (y : Nat) :
    (vSwapRow row bY x g y).model = g.model := by
  unfold vSwapRow; split
  · rfl
  · rw [setPix_model, setPix_model]

theorem vSwapCol_width (pixels : List (List Color)) (bY : Nat) (g : GoImage) (x : Nat) :
    (vSwapCol pixels bY g x).width = g.width := by
  unfold vSwapCol
  exact foldl_goimage_invariant (fun g2 => g2.width = g.width) _
    (fun g2 a2 h2 => by simp only [vSwapRow_width]; exact h2) _ g rfl

theorem vSwapCol_height (pixels : List (List Color)) (bY : Nat) (g : GoImage) (x : Nat) :
    (vSwapCol pixels bY g x).height = g.height := by
  unfold vSwapCol
  exact foldl_goimage_invariant (fun g2 => g2.height = g.height) _
    (fun g2 a2 h2 => by simp only [vSwapRow_height]; exact h2) _ g rfl

theorem vSwapCol_model (pixels : List (List Color)) (bY : Nat) (g : GoImage) (x : Nat) :
    (vSwapCol pixels bY g x).model = g.model := by
  unfold vSwapCol
  exact foldl_goimage_invariant (fun g2 => g2.model = g.model) _
    (fun g2 a2 h2 => by simp only [vSwapRow_model]; exact h2) _ g rfl

theorem getD_map_range {α : Type} (f : Nat → α) (d : α) (n x : Nat) (hx : x < n) :
    ((List.range n).map f).getD x d = f x := by
  simp [List.getD, List.getElem?_map, List.getElem?_range hx]

theorem pixelGrid_length (img : GoImage) : (pixelGrid img).length = img.width := by
  simp [pixelGrid]

theorem pixelGrid_row (img : GoImage) (x : Nat) (hx : x < img.width) :
    (pixelGrid img).getD x [] = (List.range img.height).map (fun y => img.At x y) :=
  getD_map_range _ _ _ _ hx

/-- The inner loop of flipVertically, after n of the height iterations on
column x: the rows below min n (height/2+1) and their mirror images hold the
flipped samples, everything else still holds the samples of the input
accumulator. -/
theorem vSwapRow_foldl_At (img : GoImage) (x : Nat) (hx : x < img.width) :
    ∀ n, n ≤ img.height → ∀ (g : GoImage), g.width = img.width → g.height = img.height →
    ∀ a b,
    ((List.range n).foldl
        (vSwapRow ((List.range img.height).map (fun y => img.At x y)) img.height x) g).At a b =
      if a = x ∧ (b < min n (img.height / 2 + 1) ∨
          (img.height - min n (img.height / 2 + 1) ≤ b ∧ b < img.height))
      then img.At x (img.height - 1 - b) else g.At a b := by
  intro n
  induction n with
  | zero =>
    intro _ g _ _ a b
    rw [List.range_zero, List.foldl_nil]
    split_ifs with hc
    · exfalso; omega
    · rfl
  | succ n ih =>
    intro hn g hgw hgh a b
    rw [List.range_succ, List.foldl_append, List.foldl_cons, List.foldl_nil]
    set G := (List.range n).foldl
      (vSwapRow ((List.range img.height).map (fun y => img.At x y)) img.height x) g with hG
    have hGw : G.width = img.width := by
      rw [hG]
      exact foldl_goimage_invariant (fun g2 => g2.width = img.width) _
        (fun g2 a2 h2 => by simp only [vSwapRow_width]; exact h2) _ g hgw
    have hGh : G.height = img.height := by
      rw [hG]
      exact foldl_goimage_invariant (fun g2 => g2.height = img.height) _
        (fun g2 a2 h2 => by simp only [vSwapRow_height]; exact h2) _ g hgh
    have hIH := ih (Nat.le_of_succ_le hn) g hgw hgh
    by_cases hskip : img.height / 2 < n
    · simp only [vSwapRow]
      rw [if_pos hskip, hIH a b]
      split_ifs <;> first | rfl | (exfalso; omega)
    · simp only [vSwapRow]
      rw [if_neg hskip]
      rw [getD_map_range _ _ _ _ (show img.height - n - 1 < img.height by omega),
        getD_map_range _ _ _ _ (show n < img.height by omega)]
      rw [setPix_setPix_At G x n (img.height - n - 1) _ _ (by rw [hGw]; exact hx)
        (by rw [hGh]; omega) (by rw [hGh]; omega) a b]
      rw [hIH a b]
      split_ifs <;> first | rfl | (exfalso; omega) | (congr 1; omega)

/-- One whole column pass of flipVertically: column x of the accumulator is
replaced by the reversed column x of the input image, other samples stay. -/
theorem vSwapCol_At (img : GoImage) (g : GoImage) (x : Nat)
    (hx : x < img.width) (hgw : g.width = img.width) (hgh : g.height = img.height)
    (a b : Nat) :
    (vSwapCol (pixelGrid img) img.height g x).At a b =
      if a = x ∧ b < img.height then img.At a (img.height - 1 - b) else g.At a b := by
  unfold vSwapCol
  rw [pixelGrid_row img x hx, List.length_map, List.length_range]
  rw [vSwapRow_foldl_At img x hx img.height le_rfl g hgw hgh a b]
  split_ifs with h1 h2 <;> first | rfl | (exfalso; omega) | rw [h1.1]

/-- The outer loop of flipVertically after n of the width column passes. -/
theorem vSwapCol_foldl_At (img : GoImage) :
    ∀ n, n ≤ img.width → ∀ a b,
    ((List.range n).foldl (vSwapCol (pixelGrid img) img.height)
        (newRGBA img.width img.height)).At a b =
      if a < n ∧ b < img.height then img.At a (img.height - 1 - b) else 0 := by
  intro n
  induction n with
  | zero =>
    intro _ a b
    rw [List.range_zero, List.foldl_nil]
    split_ifs with hc
    · exfalso; omega
    · rfl
  | succ n ih =>
    intro hn a b
    rw [List.range_succ, List.foldl_append, List.foldl_cons, List.foldl_nil]
    set G := (List.range n).foldl (vSwapCol (pixelGrid img) img.height)
      (newRGBA img.width img.height) with hG
    have hGw : G.width = img.width := by
      rw [hG]
      exact foldl_goimage_invariant (fun g2 => g2.width = img.width) _
        (fun g2 a2 h2 => by simp only [vSwapCol_width]; exact h2) _ _ rfl
    have hGh : G.height = img.height := by
      rw [hG]
      exact foldl_goimage_invariant (fun g2 => g2.height = img.height) _
        (fun g2 a2 h2 => by simp only [vSwapCol_height]; exact h2) _ _ rfl
    rw [vSwapCol_At img G n (by omega) hGw hGh a b]
    rw [ih (by omega) a b]
    split_ifs <;> first | rfl | (exfalso; omega)

/-- Master characterization of flipVertically on a loaded image: it
succeeds, keeps filepath and format, and replaces the data field by a fresh
RGBA image of the same dimensions whose sample at (a, b) is the input
sample at (a, height - 1 - b). -/
theorem flipVertically_loaded (i : TrackedImage) (img : GoImage) (hi : i.data = some img) :
    ∃ out : GoImage,
      flipVertically i = (none, { i with data := some out }) ∧
      out.width = img.width ∧ out.height = img.height ∧ out.model = ColorModel.rgba ∧
      ∀ a b : Nat, out.At a b =
        if a < img.width ∧ b < img.height then img.At a (img.height - 1 - b) else 0 := by
  refine ⟨(List.range (pixelGrid img).length).foldl (vSwapCol (pixelGrid img) img.height)
    (newRGBA img.width img.height), ?_, ?_, ?_, ?_, ?_⟩
  · simp only [flipVertically, getPixels, hi]
  · rw [pixelGrid_length]
    exact foldl_goimage_invariant (fun g2 => g2.width = img.width) _
      (fun g2 a2 h2 => by simp only [vSwapCol_width]; exact h2) _ _ rfl
  · rw [pixelGrid_length]
    exact foldl_goimage_invariant (fun g2 => g2.height = img.height) _
      (fun g2 a2 h2 => by simp only [vSwapCol_height]; exact h2) _ _ rfl
  · rw [pixelGrid_length]
    exact foldl_goimage_invariant (fun g2 => g2.model = ColorModel.rgba) _
      (fun g2 a2 h2 => by simp only [vSwapCol_model]; exact h2) _ _ rfl
  · intro a b
    rw [pixelGrid_length]
    exact vSwapCol_foldl_At img img.width le_rfl a b

/-- C1: for every loaded image, applying flipVertically twice succeeds and
yields an image with the same dimensions whose sample at every in-range
coordinate equals the original sample, the redundant processing of the two
middle rows for even heights notwithstanding. -/
theorem flipVertically_twice_pixel_identical (i : TrackedImage) (img : GoImage)
    (hi : i.data = some img) :
    (flipVertically i).1 = none ∧ (flipVertically (flipVertically i).2).1 = none ∧
    ∃ out : GoImage, (flipVertically (flipVertically i).2).2.data = some out ∧
      out.width = img.width ∧ out.height = img.height ∧
      ∀ x y : Nat, x < img.width → y < img.height → out.At x y = img.At x y := by
  obtain ⟨o1, h1, h1w, h1h, h1m, h1At⟩ := flipVertically_loaded i img hi
  have hi2 : (flipVertically i).2.data = some o1 := by rw [h1]
  obtain ⟨o2, h2, h2w, h2h, h2m, h2At⟩ := flipVertically_loaded (flipVertically i).2 o1 hi2
  refine ⟨by rw [h1], by rw [h2], o2, by rw [h2], by rw [h2w, h1w], by rw [h2h, h1h], ?_⟩
  intro x y hx hy
  rw [h2At x y, if_pos ⟨by rw [h1w]; exact hx, by rw [h1h]; exact hy⟩,
    h1At x (o1.height - 1 - y), h1h, if_pos ⟨hx, by omega⟩]
  congr 1
  omega

/-- C1 witness: the double flip statement instantiated on the loaded 1 by 2
image. -/
theorem flipVertically_twice_pixel_identical_witness :
    (flipVertically tracked12).1 = none ∧
    (flipVertically (flipVertically tracked12).2).1 = none ∧
    ∃ out : GoImage, (flipVertically (flipVertically tracked12).2).2.data = some out ∧
      out.width = img12.width ∧ out.height = img12.height ∧
      ∀ x y : Nat, x < img12.width → y < img12.height → out.At x y = img12.At x y :=
  flipVertically_twice_pixel_identical tracked12 img12 rfl

/-- C2: a loaded 2 by 2 image whose column-major grid is [[A,B],[C,D]] flips
to the image whose grid is [[B,A],[D,C]]: the two rows of each column are
swapped. -/
theorem flipVertically_two_by_two (A B C D : Color) (img : GoImage) (i : TrackedImage)
    (hi : i.data = some img) (hw : img.width = 2) (hh : img.height = 2)
    (hA : img.At 0 0 = A) (hB : img.At 0 1 = B) (hC : img.At 1 0 = C) (hD : img.At 1 1 = D) :
    (flipVertically i).1 = none ∧ getPixels (flipVertically i).2 = [[B, A], [D, C]] := by
  obtain ⟨o, h1, h1w, h1h, h1m, hAt⟩ := flipVertically_loaded i img hi
  have e00 : o.At 0 0 = B := by
    rw [hAt 0 0, if_pos ⟨by omega, by omega⟩, ← hB]
    congr 1
    omega
  have e01 : o.At 0 1 = A := by
    rw [hAt 0 1, if_pos ⟨by omega, by omega⟩, ← hA]
    congr 1
    omega
  have e10 : o.At 1 0 = D := by
    rw [hAt 1 0, if_pos ⟨by omega, by omega⟩, ← hD]
    congr 1
    omega
  have e11 : o.At 1 1 = C := by
    rw [hAt 1 1, if_pos ⟨by omega, by omega⟩, ← hC]
    congr 1
    omega
  refine ⟨by rw [h1], ?_⟩
  rw [h1]
  show pixelGrid o = _
  unfold pixelGrid
  rw [h1w, hw, h1h, hh, show List.range 2 = [0, 1] from rfl]
  simp only [List.map_cons, List.map_nil]
  rw [e00, e01, e10, e11]

/-- C2 witness: the 2 by 2 statement instantiated on the concrete grid
[[1,2],[3,4]]. -/
theorem flipVertically_two_by_two_witness :
    (flipVertically tracked2x2).1 = none ∧
    getPixels (flipVertically tracked2x2).2 = [[2, 1], [4, 3]] :=
  flipVertically_two_by_two 1 2 3 4 img2x2 tracked2x2 rfl rfl rfl rfl rfl rfl rfl

/-- C3 counterexample: flipVertically on a loaded image whose color model is
YCbCr succeeds but produces an image whose color model is RGBA, so the color
model is not preserved. -/
theorem flipVertically_model_not_preserved :
    (flipVertically trackedJpeg).1 = none ∧
    trackedJpeg.data.map GoImage.model = some ColorModel.ycbcr ∧
    (flipVertically trackedJpeg).2.data.map GoImage.model = some ColorModel.rgba ∧
    (ColorModel.ycbcr : ColorModel) ≠ ColorModel.rgba := by
  refine ⟨rfl, rfl, rfl, by decide⟩

/-- C3 amended: flipVertically on a loaded image succeeds and preserves
width and height, but the color model of its output is always RGBA, so the
color model is preserved only when the input model is RGBA; mirror never
succeeds. -/
theorem flipVertically_dims_preserved (i : TrackedImage) (img : GoImage)
    (hi : i.data = some img) :
    (flipVertically i).1 = none ∧
    (∃ out, (flipVertically i).2.data = some out ∧ out.width = img.width ∧
      out.height = img.height ∧ out.model = ColorModel.rgba) ∧
    (mirror i).1 ≠ none := by
  obtain ⟨o, h1, h1w, h1h, h1m, hAt⟩ := flipVertically_loaded i img hi
  refine ⟨by rw [h1], ⟨o, by rw [h1], h1w, h1h, h1m⟩, ?_⟩
  simp [mirror, h1, flipHorizontally]

/-- C3 amended witness: the dimension statement instantiated on the loaded
1 by 2 image. -/
theorem flipVertically_dims_preserved_witness :
    (flipVertically tracked12).1 = none ∧
    (∃ out, (flipVertically tracked12).2.data = some out ∧ out.width = img12.width ∧
      out.height = img12.height ∧ out.model = ColorModel.rgba) ∧
    (mirror tracked12).1 ≠ none :=
  flipVertically_dims_preserved tracked12 img12 rfl

/-- C4: for a loaded image of odd height the center row at index
(height - 1) / 2 is unchanged by flipVertically. -/
theorem flipVertically_center_row_invariant (i : TrackedImage) (img : GoImage)
    (hi : i.data = some img) (hodd : img.height % 2 = 1) :
    (flipVertically i).1 = none ∧
    ∃ out, (flipVertically i).2.data = some out ∧
      ∀ x, x < img.width →
        out.At x ((img.height - 1) / 2) = img.At x ((img.height - 1) / 2) := by
  obtain ⟨o, h1, h1w, h1h, h1m, hAt⟩ := flipVertically_loaded i img hi
  refine ⟨by rw [h1], o, by rw [h1], ?_⟩
  intro x hx
  rw [hAt x ((img.height - 1) / 2), if_pos ⟨hx, by omega⟩]
  congr 1
  omega

/-- C4 witness: the center row statement instantiated on the loaded 1 by 3
image. -/
theorem flipVertically_center_row_invariant_witness :
    (flipVertically tracked13).1 = none ∧
    ∃ out, (flipVertically tracked13).2.data = some out ∧
      ∀ x, x < img13.width →
        out.At x ((img13.height - 1) / 2) = img13.At x ((img13.height - 1) / 2) :=
  flipVertically_center_row_invariant tracked13 img13 rfl rfl

/-- C5 counterexample: on the freshly constructed state flipHorizontally
returns the NotImplemented error, which is not the NoImageLoaded error. -/
theorem flipHorizontally_empty_not_noImageLoaded :
    (flipHorizontally emptyTracked).1 = some (GoError.message notImplementedMsg) ∧
    GoError.message notImplementedMsg ≠ GoError.message noImageLoadedMsg :=
  ⟨rfl, by decide⟩

/-- C5 amended: on the freshly constructed state, flipVertically and mirror
return the NoImageLoaded error and leave the state unchanged, while
flipHorizontally returns the NotImplemented error and leaves the state
unchanged. -/
theorem flip_empty_state_errors :
    flipVertically emptyTracked = (some (GoError.message noImageLoadedMsg), emptyTracked) ∧
    mirror emptyTracked = (some (GoError.message noImageLoadedMsg), emptyTracked) ∧
    flipHorizontally emptyTracked = (some (GoError.message notImplementedMsg), emptyTracked) :=
  ⟨rfl, rfl, rfl⟩

/-- C6 counterexample: mirror on a loaded 1 by 2 image returns an error (the
horizontal stage is unimplemented) yet the state after the call differs from
the state before it, because the successful vertical stage already replaced
the pixel data. -/
theorem mirror_error_state_mutated :
    (mirror tracked12).1 = some (GoError.message notImplementedMsg) ∧
    (mirror tracked12).2.data.map (fun g => g.At 0 0) = some 2 ∧
    tracked12.data.map (fun g => g.At 0 0) = some 1 ∧
    (mirror tracked12).2 ≠ tracked12 := by
  refine ⟨rfl, rfl, rfl, fun hEq => ?_⟩
  have h2 := congrArg (fun t => t.data.map (fun g => g.At 0 0)) hEq
  exact absurd h2 (by decide)

/-- C6 amended: flipVertically replaces the data field on success and leaves
the state unchanged on error; flipHorizontally always errors and never
touches the state; mirror propagates the error of its first failing stage
unchanged but leaves the state as it was after the last successful stage,
so a successful vertical stage keeps its effect when the horizontal stage
fails. -/
theorem flip_wrappers_state_contract (i : TrackedImage) :
    ((flipVertically i).1 = none →
      ∃ img out, i.data = some img ∧ (flipVertically i).2 = { i with data := some out }) ∧
    ((flipVertically i).1 ≠ none → (flipVertically i).2 = i) ∧
    (flipHorizontally i).1 = some (GoError.message notImplementedMsg) ∧
    (flipHorizontally i).2 = i ∧
    (∀ e, (flipVertically i).1 = some e → mirror i = (some e, i)) ∧
    ((flipVertically i).1 = none → (mirror i).1 = some (GoError.message notImplementedMsg)) ∧
    (mirror i).2 = (flipVertically i).2 := by
  cases hd : i.data with
  | none =>
    have hv : flipVertically i = (some (GoError.message noImageLoadedMsg), i) := by
      unfold flipVertically
      rw [hd]
    have hm : mirror i = (some (GoError.message noImageLoadedMsg), i) := by
      unfold mirror
      rw [hv]
    refine ⟨?_, ?_, rfl, rfl, ?_, ?_, ?_⟩
    · intro h
      rw [hv] at h
      simp at h
    · intro _
      rw [hv]
    · intro e he
      rw [hv] at he
      simp at he
      rw [hm, he]
    · intro h
      rw [hv] at h
      simp at h
    · rw [hm, hv]
  | some img =>
    obtain ⟨o, h1, h1w, h1h, h1m, hAt⟩ := flipVertically_loaded i img hd
    have hv1 : (flipVertically i).1 = none := by rw [h1]
    have hm : mirror i = (some (GoError.message notImplementedMsg), { i with data := some o }) := by
      simp [mirror, h1, flipHorizontally]
    refine ⟨?_, ?_, rfl, rfl, ?_, ?_, ?_⟩
    · intro _
      exact ⟨img, o, rfl, by rw [h1]⟩
    · intro h
      exact absurd hv1 h
    · intro e he
      rw [hv1] at he
      simp at he
    · intro _
      rw [hm]
    · rw [hm, h1]

/-- C6 amended witness: the wrapper contract instantiated on the loaded
1 by 2 image. -/
theorem flip_wrappers_state_contract_witness :
    (mirror tracked12).2 = (flipVertically tracked12).2 :=
  (flip_wrappers_state_contract tracked12).2.2.2.2.2.2

/-- C7: load sets filepath, format and data together exactly when both the
file read and the decode succeed; on any failure the underlying error is
returned unchanged and the state is exactly the state before the call. -/
theorem load_atomic_state_contract (i : TrackedImage) (path : String)
    (openRes : Option GoError) (decodeRes : Except GoError (GoImage × String)) :
    ((load i path openRes decodeRes).1 = none ↔
      openRes = none ∧ ∃ img fm, decodeRes = Except.ok (img, fm)) ∧
    (∀ img fm, openRes = none → decodeRes = Except.ok (img, fm) →
      load i path openRes decodeRes =
        (none, { filepath := path, format := fm, data := some img })) ∧
    (∀ e, openRes = some e → load i path openRes decodeRes = (some e, i)) ∧
    (∀ e, openRes = none → decodeRes = Except.error e →
      load i path openRes decodeRes = (some e, i)) := by
  cases openRes with
  | some e =>
    refine ⟨by simp [load], ?_, ?_, ?_⟩
    · intro img fm hopen _
      exact Option.noConfusion hopen
    · intro e2 he2
      cases he2
      rfl
    · intro e2 hopen _
      exact Option.noConfusion hopen
  | none =>
    cases decodeRes with
    | error e =>
      refine ⟨by simp [load], ?_, ?_, ?_⟩
      · intro img fm _ hde
        exact Except.noConfusion hde
      · intro e2 he2
        exact Option.noConfusion he2
      · intro e2 _ hde
        cases hde
        rfl
    | ok p =>
      obtain ⟨img, fm⟩ := p
      refine ⟨⟨fun _ => ⟨rfl, img, fm, rfl⟩, fun _ => rfl⟩, ?_, ?_, ?_⟩
      · intro img2 fm2 _ hde
        cases hde
        rfl
      · intro e2 he2
        exact Option.noConfusion he2
      · intro e2 _ hde
        exact Except.noConfusion hde

/-- C7 witness: a successful load on the fresh state sets all three fields. -/
theorem load_atomic_state_contract_witness :
    load emptyTracked "a" none (Except.ok (img12, "png")) =
      (none, { filepath := "a", format := "png", data := some img12 }) :=
  (load_atomic_state_contract emptyTracked "a" none
    (Except.ok (img12, "png"))).2.1 img12 "png" rfl rfl

/-- C8 counterexample: with an unencodable format tag and a succeeding
os.Create, save returns the UnsupportedFormat error but has already created
or truncated the target file, so a file-system effect is performed. -/
theorem save_unsupported_creates_file :
    save trackedBmp none none none =
      (some (GoError.message ("unsupported format: " ++ "bmp")), [FsEffect.create "p"]) ∧
    ([FsEffect.create "p"] : List FsEffect) ≠ [] :=
  ⟨rfl, by decide⟩

/-- C8 amended: when the format tag is not in the encodable set, save
returns the UnsupportedFormat error, but only after os.Create has created
or truncated the target file; when os.Create fails, its error is returned
with no file-system effect; an absent path argument makes save target the
stored filepath. -/
theorem save_unsupported_after_create (i : TrackedImage) (pathArg : Option String)
    (encodeRes : Option GoError) (h1 : i.format ≠ "png") (h2 : i.format ≠ "jpeg") :
    save i pathArg none encodeRes =
      (some (GoError.message ("unsupported format: " ++ i.format)),
        [FsEffect.create (match pathArg with | none => i.filepath | some p => p)]) ∧
    (∀ e, save i pathArg (some e) encodeRes = (some e, [])) := by
  constructor
  · simp [save, h1, h2]
  · intro e
    rfl

/-- C8 amended witness: the save contract instantiated on the bmp-tagged
state with no explicit path. -/
theorem save_unsupported_after_create_witness :
    save trackedBmp none none none =
      (some (GoError.message ("unsupported format: " ++ trackedBmp.format)),
        [FsEffect.create trackedBmp.filepath]) :=
  (save_unsupported_after_create trackedBmp none none (by decide) (by decide)).1

/-- C9: resize returns the InvalidModifier error exactly when the modifier
is at most 0.10 or lies strictly between 1.00 and 1.01, returns success
otherwise, and never changes the state. -/
theorem resize_validation_contract (i : TrackedImage) (m : ℚ) :
    ((resize i m).1 = some (GoError.message invalidModifierMsg) ↔
      m ≤ 1/10 ∨ (1 < m ∧ m < 101/100)) ∧
    ((resize i m).1 = none ↔ ¬(m ≤ 1/10 ∨ (1 < m ∧ m < 101/100))) ∧
    (resize i m).2 = i := by
  unfold resize
  split_ifs with hc
  · refine ⟨⟨fun _ => hc, fun _ => rfl⟩, ⟨fun h => ?_, fun h => absurd hc h⟩, rfl⟩
    exact absurd h (by simp)
  · refine ⟨⟨fun h => ?_, fun h => absurd h hc⟩, ⟨fun _ => hc, fun _ => rfl⟩, rfl⟩
    exact absurd h (by simp)

/-- C9 witness: resize with modifier 2 succeeds and changes nothing. -/
theorem resize_validation_contract_witness :
    (resize emptyTracked 2).1 = none ∧ (resize emptyTracked 2).2 = emptyTracked :=
  ⟨(resize_validation_contract emptyTracked 2).2.1.mpr (by norm_num),
   (resize_validation_contract emptyTracked 2).2.2⟩

/-- C10: whenever flipVertically succeeds, the filepath and format fields
are unchanged by the call and the data field is replaced. -/
theorem flipVertically_frame_fields (i : TrackedImage)
    (hsucc : (flipVertically i).1 = none) :
    (flipVertically i).2.filepath = i.filepath ∧
    (flipVertically i).2.format = i.format ∧
    ∃ img out, i.data = some img ∧ (flipVertically i).2.data = some out := by
  cases hd : i.data with
  | none =>
    have hv : flipVertically i = (some (GoError.message noImageLoadedMsg), i) := by
      unfold flipVertically
      rw [hd]
    rw [hv] at hsucc
    simp at hsucc
  | some img =>
    obtain ⟨o, h1, h1w, h1h, h1m, hAt⟩ := flipVertically_loaded i img hd
    rw [h1]
    exact ⟨rfl, rfl, img, o, rfl, rfl⟩

/-- C10 witness: the frame statement instantiated on the loaded 1 by 2
image. -/
theorem flipVertically_frame_fields_witness :
    (flipVertically tracked12).2.filepath = tracked12.filepath ∧
    (flipVertically tracked12).2.format = tracked12.format ∧
    ∃ img out, tracked12.data = some img ∧ (flipVertically tracked12).2.data = some out :=
  flipVertically_frame_fields tracked12 rfl
